import Mathlib

/-!
Shallow embedding of the local replica synchronization subsystem found in
`src/scripts/install_hooks.ps1`, which holds three concatenated PowerShell
scripts: the lifecycle hook installer (lines 1-31), `sync_db` variant 1
(lines 32-108) and `sync_db` variant 2 (lines 109-219).

Pure .NET / PowerShell string operations are modelled over `List Char`.
The filesystem (replica `db.sqlite3`, marker `.db_version`, backups,
scratch files in `$env:TEMP`) is an explicit state record.  Every fallible
external step (network call, copy, move, write) is driven by a boolean in
the environment record: `false` models the step throwing under
`$ErrorActionPreference = "Stop"`.
-/

namespace Sencity

/-- .NET `String.Trim()` on the character list: whitespace removed from both
ends (Lean's `Char.isWhitespace` covers the space, tab, CR and LF characters
that occur in the data handled by the scripts). -/
def trimList (l : List Char) : List Char :=
  ((l.dropWhile Char.isWhitespace).reverse.dropWhile Char.isWhitespace).reverse

/-- .NET `String.Trim()`. -/
def dotnetTrim (s : String) : String := (trimList s.toList).asString

/-- .NET `String.ToLower()` (the scripts only apply it to ASCII tags and hex
digests, where the invariant-culture lowering is per-character). -/
def lowerStr (s : String) : String := (s.toList.map Char.toLower).asString

/-- PowerShell `-eq` / `-ne` on strings compares case-insensitively. -/
def eqCI (a b : String) : Bool := lowerStr a == lowerStr b

/-- One character of the PowerShell pattern class `[0-9a-fA-F]`. -/
def isHexChar (c : Char) : Bool :=
  c.isDigit || ('a' ≤ c && c ≤ 'f') || ('A' ≤ c && c ≤ 'F')

/-- The anchored pattern `^[0-9a-f]{64}$` of variant 2 line 199 (its scrutinee
is already lower-cased, and PowerShell `-match` is case-insensitive, so the
case-insensitive character class is equivalent). -/
def isHex64 (s : String) : Bool := s.length == 64 && s.toList.all isHexChar

/-- Leftmost match of the pattern `[0-9a-fA-F]{64}` (variant 2 line 200).
`Select-String` scans line by line, but no line terminator is a hex character,
so a match never crosses a line boundary and scanning the raw character list is
equivalent. -/
def firstHex64L : List Char → Option String
  | [] => none
  | c :: cs =>
    let cand := (c :: cs).take 64
    if cand.length == 64 && cand.all isHexChar then some cand.asString
    else firstHex64L cs

/-- Leftmost `[0-9a-fA-F]{64}` match in the raw checksum text. -/
def firstHex64 (s : String) : Option String := firstHex64L s.toList

/-- First element of PowerShell `Get-Content` output: the first line, with its
terminator (and a preceding CR for CRLF files) removed. -/
def firstLine (s : String) : String :=
  let l := s.toList.takeWhile (fun c => c != '\n')
  (if l.getLast? == some '\r' then l.dropLast else l).asString

/-- Variant 1 line 95: `(Get-Content $shaTmp).Split(" ")[0].Trim()` — the first
space-delimited token of the first line (the `[0]` element of the .NET
`Split(" ")` result is the run of characters before the first space), trimmed. -/
def expectedV1 (raw : String) : String :=
  dotnetTrim ((firstLine raw).toList.takeWhile (fun c => c != ' ')).asString

/-- Variant 2 lines 197-202: trim and lower-case the whole checksum file; if
the result is not an anchored 64-hex string, fall back to the first
64-hex-character substring of the raw text, lower-cased; if there is none,
keep the trimmed value. -/
def expectedV2 (raw : String) : String :=
  let e := lowerStr (dotnetTrim raw)
  if isHex64 e then e
  else
    match firstHex64 raw with
    | some m => lowerStr m
    | none => e

/-- Case-insensitive character comparison, as PowerShell `-match` performs on
regex literals (`RegexOptions.IgnoreCase`; for the ASCII letters occurring in
this regex it is per-character lowering). -/
def eqCIChar (a b : Char) : Bool := a.toLower == b.toLower

/-- Case-insensitive list comparison, for the optional `.git` suffix literal
under `-match`'s ignore-case semantics. -/
def eqCIList (a b : List Char) : Bool := a.map Char.toLower == b.map Char.toLower

/-- Does the pattern list occur at the head of the text list?  Literal regex
text is matched case-insensitively by PowerShell `-match`. -/
def startsWithL : List Char → List Char → Bool
  | [], _ => true
  | _ :: _, [] => false
  | p :: ps, c :: cs => eqCIChar p c && startsWithL ps cs

/-- The literal host part of the `Parse-GitRemote` regex. -/
def ghHost : List Char := "github.com".toList

/-- Tail of the regex `github\.com[:/](?<owner>[^/]+)/(?<repo>[^/.]+)(\.git)?$`
after the one-character separator: the greedy `[^/]+` owner group is forced to
extend to the first `/`, the repo group to the first `/` or `.`, and the
remainder of the string must be empty or the literal `.git` — the latter
compared case-insensitively, as `-match` does. -/
def matchOwnerRepo (rest : List Char) : Option (String × String) :=
  let owner := rest.takeWhile (fun c => c != '/')
  match rest.drop owner.length with
  | '/' :: rem =>
    if owner.isEmpty then none
    else
      let repo := rem.takeWhile (fun c => c != '/' && c != '.')
      let rem2 := rem.drop repo.length
      if repo.isEmpty then none
      else if rem2.isEmpty || eqCIList rem2 ".git".toList then
        some (owner.asString, repo.asString)
      else none
  | _ => none

/-- Leftmost-match search of the unanchored-start regex: try every start
position left to right, as the .NET engine does. -/
def scanRemote : List Char → Option (String × String)
  | [] => none
  | c :: cs =>
    match
      (if startsWithL ghHost (c :: cs) then
        match (c :: cs).drop ghHost.length with
        | sep :: rest => if sep == ':' || sep == '/' then matchOwnerRepo rest else none
        | [] => none
      else none)
    with
    | some p => some p
    | none => scanRemote cs

/-- `Parse-GitRemote` (identical in both variants, lines 43-48 and 130-135):
the captured (owner, repo) on a regex match, `("","")` otherwise. -/
def parseGitRemote (url : String) : String × String :=
  match scanRemote url.toList with
  | some p => p
  | none => ("", "")

/-- Owner/repo resolution (variant 1 lines 53-58, variant 2 lines 141-150):
if either parameter is empty (PowerShell falsy), BOTH are overwritten from the
parsed remote URL; a still-empty value afterwards is fatal.  A failed `git
config` call yields an empty remote string, modelled by `remoteUrl = none`. -/
def resolveCoords (owner repo : String) (remoteUrl : Option String) :
    Option (String × String) :=
  let p :=
    if owner == "" || repo == "" then parseGitRemote (remoteUrl.getD "")
    else (owner, repo)
  if p.1 == "" || p.2 == "" then none else some p

/-- A release asset: its name and the bytes its download URL serves. -/
structure Asset where
  name : String
  content : String
deriving Repr, DecidableEq

/-- The latest-release descriptor returned by the metadata query. -/
structure Release where
  tag_name : String
  assets : List Asset
deriving Repr, DecidableEq

/-- Process outcome: normal completion, up-to-date skip, or a fatal error
(`throw` / `Write-Error; exit 1`). -/
inductive Outcome where
  | ok
  | skipped
  | err (msg : String)
deriving Repr, DecidableEq

/-- Process exit code: 0 on completion and on skip, 1 on a fatal error. -/
def Outcome.exitCode : Outcome → Nat
  | .ok => 0
  | .skipped => 0
  | .err _ => 1

/-- Did the run end on a fatal error? -/
def Outcome.isErr : Outcome → Bool
  | .err _ => true
  | _ => false

/-- Filesystem state touched by a sync run: the replica `db.sqlite3`, the raw
content of the marker `.db_version`, the backup files (name, content), and the
two scratch files in `$env:TEMP`. -/
structure FsState where
  replica : Option String
  marker : Option String
  backups : List (String × String)
  tmpDb : Option String
  tmpSha : Option String
deriving Repr, DecidableEq

/-- Inputs of one sync run: script parameters, the git remote URL, the remote
release descriptor (`none` models a failed metadata query), success booleans
for every fallible filesystem / network step, the SHA-256 oracle (what
`Get-FileHash` returns, upper-case hex, for given file bytes), and the
`Get-Date -Format "yyyyMMdd-HHmmss"` timestamp of this run. -/
structure Env where
  owner : String
  repo : String
  assetName : String
  shaAssetName : String
  remoteUrl : Option String
  release : Option Release
  dbDownloadOk : Bool
  shaDownloadOk : Bool
  sha256 : String → String
  ts : String
  backupOk : Bool
  moveOk : Bool
  markerWriteOk : Bool

/-- Result of a run: final filesystem state, outcome, and the number of asset
downloads attempted after the one metadata query. -/
structure RunOut where
  fs : FsState
  outcome : Outcome
  downloads : Nat
deriving Repr, DecidableEq

/-- Windows PowerShell 5.1 line terminator appended by `Set-Content`. -/
def nl : String := "\r\n"

/-- Marker file content produced by `Set-Content -Path $versionFile -Value
$remoteTag` (lines 106 and 217): the tag plus a trailing line terminator. -/
def markerWrite (tag : String) : String := tag ++ nl

/-- Backup file name `"$targetDb.bak.$ts"` (lines 103 and 214), relative to the
repository root. -/
def backupName (ts : String) : String := "db.sqlite3.bak." ++ ts

/-- The `Get-Date` format string of the backup timestamp (lines 102 and 213). -/
def tsFormat : String := "yyyyMMdd-HHmmss"

/-- Variant 1 line 74: the local tag is the raw marker content
(`Get-Content -Raw`, no trimming), empty when the marker file is absent. -/
def localTagV1 (marker : Option String) : String := marker.getD ""

/-- Variant 2 lines 171-174: the local tag is the trimmed marker content,
empty when the marker file is absent. -/
def localTagV2 (marker : Option String) : String := dotnetTrim (marker.getD "")

/-- `$rel.assets | Where-Object { $_.name -eq $nm } | Select-Object -First 1`
(`-eq` is case-insensitive). -/
def findAsset (assets : List Asset) (nm : String) : Option Asset :=
  assets.find? (fun a => eqCI a.name nm)

/-- Write a file into a directory listing: overwrite the first entry with that
name in place when the name exists, append otherwise. -/
def writeFileL : List (String × String) → String → String → List (String × String)
  | [], nm, content => [(nm, content)]
  | a :: l, nm, content =>
    if a.1 == nm then (nm, content) :: l else a :: writeFileL l nm content

/-- Read a file from a directory listing. -/
def readFileL : List (String × String) → String → Option String
  | [], _ => none
  | a :: l, nm => if a.1 == nm then some a.2 else readFileL l nm

/-- Replacer step 3 (lines 106 and 217): commit the new tag to the marker. -/
def replacerCommit (e : Env) (s : FsState) (tag : String) (dls : Nat) : RunOut :=
  if e.markerWriteOk then ⟨{ s with marker := some (markerWrite tag) }, .ok, dls⟩
  else ⟨s, .err "marker write failed", dls⟩

/-- Replacer step 2 (lines 105 and 216): `Move-Item -Force $tmpDownload
$targetDb` — the staged artifact becomes the replica, the staged path is
vacated. -/
def replacerMove (e : Env) (s : FsState) (tag : String) (dls : Nat) : RunOut :=
  if e.moveOk then replacerCommit e { s with replica := s.tmpDb, tmpDb := none } tag dls
  else ⟨s, .err "move failed", dls⟩

/-- The backup / replace / commit sequence, textually identical in the two
variants (lines 100-106 and 211-217).  Step 1: when the replica exists, copy it
to `"$targetDb.bak.$ts"`. -/
def replacer (e : Env) (s : FsState) (tag : String) (dls : Nat) : RunOut :=
  match s.replica with
  | some old =>
    if e.backupOk then
      replacerMove e { s with backups := writeFileL s.backups (backupName e.ts) old } tag dls
    else ⟨s, .err "backup copy failed", dls⟩
  | none => replacerMove e s tag dls

/-- Variant 1 lines 89-98: optional SHA-256 verification.  On mismatch the run
fails WITHOUT removing the staged artifact. -/
def verifyV1 (e : Env) (s : FsState) (rel : Release) (dbContent : String) : RunOut :=
  match findAsset rel.assets e.shaAssetName with
  | none => replacer e s rel.tag_name 1
  | some sha =>
    if e.shaDownloadOk then
      if eqCI (lowerStr (expectedV1 sha.content)) (lowerStr (e.sha256 dbContent)) then
        replacer e { s with tmpSha := some sha.content } rel.tag_name 2
      else ⟨{ s with tmpSha := some sha.content }, .err "SHA256 mismatch", 2⟩
    else ⟨s, .err "sha download failed", 2⟩

/-- Variant 2 lines 190-209: optional SHA-256 verification.  On mismatch the
staged artifact is removed (`Remove-Item -Force $tmpDownload`) before the run
fails. -/
def verifyV2 (e : Env) (s : FsState) (rel : Release) (dbContent : String) : RunOut :=
  match findAsset rel.assets e.shaAssetName with
  | none => replacer e s rel.tag_name 1
  | some sha =>
    if e.shaDownloadOk then
      if eqCI (expectedV2 sha.content) (lowerStr (e.sha256 dbContent)) then
        replacer e { s with tmpSha := some sha.content } rel.tag_name 2
      else ⟨{ s with tmpSha := some sha.content, tmpDb := none }, .err "SHA256 mismatch", 2⟩
    else ⟨s, .err "sha download failed", 2⟩

/-- `sync_db` variant 1 (lines 32-108): resolve coordinates, query the latest
release, skip when the raw marker content case-insensitively equals the remote
tag and the replica exists, otherwise download, optionally verify, and
replace. -/
def syncV1 (e : Env) (s : FsState) : RunOut :=
  match resolveCoords e.owner e.repo e.remoteUrl with
  | none => ⟨s, .err "cannot determine owner and repo", 0⟩
  | some _ =>
    match e.release with
    | none => ⟨s, .err "release query failed", 0⟩
    | some rel =>
      if eqCI rel.tag_name (localTagV1 s.marker) && s.replica.isSome then ⟨s, .skipped, 0⟩
      else
        match findAsset rel.assets e.assetName with
        | none => ⟨s, .err "asset not found", 0⟩
        | some asset =>
          if e.dbDownloadOk then
            verifyV1 e { s with tmpDb := some asset.content } rel asset.content
          else ⟨s, .err "download failed", 1⟩

/-- `sync_db` variant 2 (lines 109-219): same pipeline, but the skip comparison
trims the marker content first, the digest extraction is the tolerant one, and
a mismatch removes the staged artifact. -/
def syncV2 (e : Env) (s : FsState) : RunOut :=
  match resolveCoords e.owner e.repo e.remoteUrl with
  | none => ⟨s, .err "cannot determine owner and repo", 0⟩
  | some _ =>
    match e.release with
    | none => ⟨s, .err "release query failed", 0⟩
    | some rel =>
      if eqCI rel.tag_name (localTagV2 s.marker) && s.replica.isSome then ⟨s, .skipped, 0⟩
      else
        match findAsset rel.assets e.assetName with
        | none => ⟨s, .err "asset not found", 0⟩
        | some asset =>
          if e.dbDownloadOk then
            verifyV2 e { s with tmpDb := some asset.content } rel asset.content
          else ⟨s, .err "download failed", 1⟩

/-- Environment of the hook installer: whether a repository root was found
(line 6-11), whether `.git\hooks` exists (lines 13-14), and the current hook
directory listing. -/
structure HookEnv where
  repoRootOk : Bool
  hooksDirOk : Bool
  hooks : List (String × String)
deriving Repr, DecidableEq

/-- The `.bat` stub written into every hook slot (lines 16-22 plus the trailing
newline `Set-Content` appends): it runs `scripts\sync_db.ps1` with no
arguments. -/
def hookStub : String :=
  "@echo off\r\nREM Auto-sync DB from latest GitHub Release on checkout/merge/rewrite\r\nREM Uses PowerShell to run scripts\\sync_db.ps1\r\npowershell -NoProfile -ExecutionPolicy Bypass -File \"%~dp0..\\..\\scripts\\sync_db.ps1\"\r\nexit /b 0\r\n"

/-- The three hook slots written by the installer (line 24). -/
def hookTargets : List String := ["post-checkout.bat", "post-merge.bat", "post-rewrite.bat"]

/-- `install_hooks.ps1` (lines 1-31): fail when no repository root or no
`.git\hooks` directory is found; otherwise unconditionally write the stub into
each of the three hook slots. -/
def installHooks (e : HookEnv) : (List (String × String)) × Outcome :=
  if !e.repoRootOk then (e.hooks, .err "Cannot find repo root. Run from inside a Git repo.")
  else if !e.hooksDirOk then (e.hooks, .err ".git/hooks not found (did you clone the repo?)")
  else (hookTargets.foldl (fun fs t => writeFileL fs t hookStub) e.hooks, .ok)

/-- The sixteen lower-case hexadecimal characters, as an explicit list for
case analysis in proofs. -/
def lowerHexChars : List Char := "0123456789abcdef".toList

/-- A concrete test environment (explicit owner/repo, default asset names, all
fallible steps succeeding, no release descriptor yet): the base fixture for
concrete runs in witnesses and counterexamples. -/
def baseEnv : Env where
  owner := "o"
  repo := "r"
  assetName := "db_release.sqlite3"
  shaAssetName := "db_release.sha256.txt"
  remoteUrl := none
  release := none
  dbDownloadOk := true
  shaDownloadOk := true
  sha256 := fun _ => "AA"
  ts := "20260101-000000"
  backupOk := true
  moveOk := true
  markerWriteOk := true

/-- A release with tag `v3` serving one database asset and no checksum asset. -/
def relV3 : Release := ⟨"v3", [⟨"db_release.sqlite3", "NEWDB"⟩]⟩

/-- A release with tag `v2` serving one database asset with content `NEW`. -/
def relV2N : Release := ⟨"v2", [⟨"db_release.sqlite3", "NEW"⟩]⟩

/-- Sixty-four `b` characters: a well-formed digest that matches no content
under the `baseEnv` hash oracle. -/
def hex64b : String := String.mk (List.replicate 64 'b')

/-- A release with tag `v4` whose checksum asset advertises a digest that does
not match the database asset under the `baseEnv` hash oracle. -/
def relV4bad : Release :=
  ⟨"v4", [⟨"db_release.sqlite3", "NEW"⟩, ⟨"db_release.sha256.txt", hex64b⟩]⟩

/-! ### Generic list, character and string lemmas -/

theorem takeWhile_append_all {α} (p : α → Bool) :
    ∀ (l₁ l₂ : List α), (∀ a ∈ l₁, p a = true) →
      (l₁ ++ l₂).takeWhile p = l₁ ++ l₂.takeWhile p
  | [], _, _ => by simp
  | a :: l, l₂, h => by
    have ha : p a = true := h a (List.mem_cons_self a l)
    simp only [List.cons_append, List.takeWhile_cons_of_pos ha]
    rw [takeWhile_append_all p l l₂ (fun x hx => h x (List.mem_cons_of_mem a hx))]

theorem takeWhile_append_stop {α} (p : α → Bool) (l₁ : List α) (a : α) (l₂ : List α)
    (h : ∀ x ∈ l₁, p x = true) (ha : p a = false) :
    (l₁ ++ a :: l₂).takeWhile p = l₁ := by
  rw [takeWhile_append_all p l₁ _ h, List.takeWhile_cons_of_neg (by simp [ha])]
  simp

theorem dropWhile_append_all {α} (p : α → Bool) :
    ∀ (l₁ l₂ : List α), (∀ a ∈ l₁, p a = true) →
      (l₁ ++ l₂).dropWhile p = l₂.dropWhile p
  | [], _, _ => by simp
  | a :: l, l₂, h => by
    simp only [List.cons_append, List.dropWhile_cons_of_pos (h a (List.mem_cons_self a l))]
    exact dropWhile_append_all p l l₂ (fun x hx => h x (List.mem_cons_of_mem a hx))

theorem dropWhile_append_left {α} (p : α → Bool) :
    ∀ (l₁ l₂ : List α), l₁.dropWhile p ≠ [] →
      (l₁ ++ l₂).dropWhile p = l₁.dropWhile p ++ l₂
  | [], _, h => absurd rfl h
  | a :: l, l₂, h => by
    by_cases ha : p a = true
    · rw [List.dropWhile_cons_of_pos ha] at h
      simp only [List.cons_append, List.dropWhile_cons_of_pos ha]
      exact dropWhile_append_left p l l₂ h
    · simp [List.dropWhile_cons_of_neg ha]

theorem trimList_append_ws (l w : List Char)
    (hw : ∀ c ∈ w, c.isWhitespace = true) :
    trimList (l ++ w) = trimList l := by
  unfold trimList
  by_cases hd : l.dropWhile Char.isWhitespace = []
  · have h1 : (l ++ w).dropWhile Char.isWhitespace = [] := by
      rw [List.dropWhile_eq_nil_iff] at hd ⊢
      intro x hx
      rcases List.mem_append.1 hx with h | h
      · exact hd x h
      · exact hw x h
    rw [h1, hd]
  · rw [dropWhile_append_left _ _ _ hd, List.reverse_append,
      dropWhile_append_all _ w.reverse _ (fun c hc => hw c (List.mem_reverse.1 hc))]

theorem lowerHex_facts : ∀ c ∈ lowerHexChars,
    c.toLower = c ∧ isHexChar c = true ∧ c.isWhitespace = false ∧
    (c != '\n') = true ∧ (c != ' ') = true := by decide

theorem lowerHex_toLower {c : Char} (h : c ∈ lowerHexChars) : c.toLower = c :=
  (lowerHex_facts c h).1

theorem lowerHex_isHexChar {c : Char} (h : c ∈ lowerHexChars) : isHexChar c = true :=
  (lowerHex_facts c h).2.1

theorem lowerHex_not_ws {c : Char} (h : c ∈ lowerHexChars) : c.isWhitespace = false :=
  (lowerHex_facts c h).2.2.1

theorem lowerHex_ne_lf {c : Char} (h : c ∈ lowerHexChars) : (c != '\n') = true :=
  (lowerHex_facts c h).2.2.2.1

theorem lowerHex_ne_space {c : Char} (h : c ∈ lowerHexChars) : (c != ' ') = true :=
  (lowerHex_facts c h).2.2.2.2

theorem lowerStr_fix {s : String} (h : ∀ c ∈ s.toList, c ∈ lowerHexChars) :
    lowerStr s = s := by
  unfold lowerStr
  rw [List.map_congr_left (fun c hc => lowerHex_toLower (h c hc))]
  simp only [List.map_id_fun', id]
  exact String.asString_toList s

theorem toList_append (a b : String) : (a ++ b).toList = a.toList ++ b.toList :=
  String.data_append a b

theorem dotnetTrim_markerWrite (tag : String) :
    dotnetTrim (markerWrite tag) = dotnetTrim tag := by
  unfold dotnetTrim markerWrite nl
  rw [toList_append]
  rw [show ("\r\n" : String).toList = ['\r', '\n'] from rfl,
    trimList_append_ws _ _ (by intro c hc; fin_cases hc <;> decide)]

/-! ### Directory-listing lemmas -/

theorem readFileL_writeFileL_self :
    ∀ (files : List (String × String)) (nm c : String),
      readFileL (writeFileL files nm c) nm = some c
  | [], nm, c => by simp [writeFileL, readFileL]
  | a :: l, nm, c => by
    by_cases ha : (a.1 == nm) = true
    · simp [writeFileL, readFileL, ha]
    · simp [writeFileL, readFileL, ha, readFileL_writeFileL_self l nm c]

theorem readFileL_writeFileL_ne :
    ∀ (files : List (String × String)) {nm nm' : String} (c : String),
      (nm' == nm) = false →
      readFileL (writeFileL files nm c) nm' = readFileL files nm'
  | [], nm, nm', c, h => by
    have h' : (nm == nm') = false := by
      cases hx : nm == nm'
      · rfl
      · rw [show nm = nm' from by simpa using hx] at h
        simpa using h
    simp [writeFileL, readFileL, h']
  | a :: l, nm, nm', c, h => by
    by_cases ha : (a.1 == nm) = true
    · have ha' : (a.1 == nm') = false := by
        cases hx : a.1 == nm'
        · rfl
        · rw [show a.1 = nm' from by simpa using hx] at ha
          rw [show nm' = nm from by simpa using ha] at h
          simpa using h
      simp [writeFileL, readFileL, ha, ha',
        show (nm == nm') = false from by
          cases hx : nm == nm'
          · rfl
          · rw [show nm = nm' from by simpa using hx] at h
            simpa using h]
    · by_cases ha' : (a.1 == nm') = true
      · simp [writeFileL, readFileL, ha, ha']
      · simp [writeFileL, readFileL, ha, ha', readFileL_writeFileL_ne l c h]

theorem writeFileL_fresh :
    ∀ (files : List (String × String)) {nm : String} (c : String),
      readFileL files nm = none →
      writeFileL files nm c = files ++ [(nm, c)]
  | [], nm, c, _ => rfl
  | a :: l, nm, c, h => by
    by_cases ha : (a.1 == nm) = true
    · simp [readFileL, ha] at h
    · simp [writeFileL, readFileL, ha] at h ⊢
      exact writeFileL_fresh l c h

/-! ### Characterization of the replacer and the two sync pipelines -/

theorem replacer_ok (e : Env) (s : FsState) (tag : String) (d : Nat)
    (h : (replacer e s tag d).outcome = .ok) :
    e.moveOk = true ∧ e.markerWriteOk = true ∧
    (replacer e s tag d).fs.marker = some (markerWrite tag) ∧
    (replacer e s tag d).fs.replica = s.tmpDb ∧
    (replacer e s tag d).fs.tmpDb = none ∧
    (replacer e s tag d).fs.tmpSha = s.tmpSha ∧
    (replacer e s tag d).fs.backups =
      (match s.replica with
       | some old => writeFileL s.backups (backupName e.ts) old
       | none => s.backups) ∧
    (replacer e s tag d).downloads = d := by
  cases hrep : s.replica with
  | none =>
    cases hmv : e.moveOk with
    | false => simp [replacer, replacerMove, hrep, hmv] at h
    | true =>
      cases hmk : e.markerWriteOk with
      | false => simp [replacer, replacerMove, replacerCommit, hrep, hmv, hmk] at h
      | true => simp [replacer, replacerMove, replacerCommit, hrep, hmv, hmk]
  | some old =>
    cases hbk : e.backupOk with
    | false => simp [replacer, hrep, hbk] at h
    | true =>
      cases hmv : e.moveOk with
      | false => simp [replacer, replacerMove, hrep, hbk, hmv] at h
      | true =>
        cases hmk : e.markerWriteOk with
        | false => simp [replacer, replacerMove, replacerCommit, hrep, hbk, hmv, hmk] at h
        | true => simp [replacer, replacerMove, replacerCommit, hrep, hbk, hmv, hmk]

theorem replacer_err (e : Env) (s : FsState) (tag : String) (d : Nat)
    (hm : e.markerWriteOk = true)
    (h : (replacer e s tag d).outcome.isErr = true) :
    (replacer e s tag d).fs.replica = s.replica ∧
    (replacer e s tag d).fs.marker = s.marker := by
  cases hrep : s.replica with
  | none =>
    cases hmv : e.moveOk with
    | false => simp [replacer, replacerMove, hrep, hmv]
    | true => simp [replacer, replacerMove, replacerCommit, hrep, hmv, hm, Outcome.isErr] at h
  | some old =>
    cases hbk : e.backupOk with
    | false => simp [replacer, hrep, hbk]
    | true =>
      cases hmv : e.moveOk with
      | false => simp [replacer, replacerMove, hrep, hbk, hmv]
      | true =>
        simp [replacer, replacerMove, replacerCommit, hrep, hbk, hmv, hm, Outcome.isErr] at h

theorem syncV2_eq_verify {e : Env} {s : FsState} {pr : String × String} {rel : Release}
    {asset : Asset}
    (hrc : resolveCoords e.owner e.repo e.remoteUrl = some pr)
    (hrel : e.release = some rel)
    (hsk : (eqCI rel.tag_name (localTagV2 s.marker) && s.replica.isSome) = false)
    (hfa : findAsset rel.assets e.assetName = some asset)
    (hdl : e.dbDownloadOk = true) :
    syncV2 e s = verifyV2 e { s with tmpDb := some asset.content } rel asset.content := by
  simp [syncV2, hrc, hrel, hsk, hfa, hdl]

theorem syncV1_eq_verify {e : Env} {s : FsState} {pr : String × String} {rel : Release}
    {asset : Asset}
    (hrc : resolveCoords e.owner e.repo e.remoteUrl = some pr)
    (hrel : e.release = some rel)
    (hsk : (eqCI rel.tag_name (localTagV1 s.marker) && s.replica.isSome) = false)
    (hfa : findAsset rel.assets e.assetName = some asset)
    (hdl : e.dbDownloadOk = true) :
    syncV1 e s = verifyV1 e { s with tmpDb := some asset.content } rel asset.content := by
  simp [syncV1, hrc, hrel, hsk, hfa, hdl]

theorem verifyV2_eq_noSha {e : Env} {s : FsState} {rel : Release} {c : String}
    (hsa : findAsset rel.assets e.shaAssetName = none) :
    verifyV2 e s rel c = replacer e s rel.tag_name 1 := by
  simp [verifyV2, hsa]

theorem verifyV1_eq_noSha {e : Env} {s : FsState} {rel : Release} {c : String}
    (hsa : findAsset rel.assets e.shaAssetName = none) :
    verifyV1 e s rel c = replacer e s rel.tag_name 1 := by
  simp [verifyV1, hsa]

theorem verifyV2_eq_match {e : Env} {s : FsState} {rel : Release} {c : String} {sha : Asset}
    (hsa : findAsset rel.assets e.shaAssetName = some sha)
    (hsd : e.shaDownloadOk = true)
    (hcmp : eqCI (expectedV2 sha.content) (lowerStr (e.sha256 c)) = true) :
    verifyV2 e s rel c = replacer e { s with tmpSha := some sha.content } rel.tag_name 2 := by
  simp [verifyV2, hsa, hsd, hcmp]

theorem verifyV1_eq_match {e : Env} {s : FsState} {rel : Release} {c : String} {sha : Asset}
    (hsa : findAsset rel.assets e.shaAssetName = some sha)
    (hsd : e.shaDownloadOk = true)
    (hcmp : eqCI (lowerStr (expectedV1 sha.content)) (lowerStr (e.sha256 c)) = true) :
    verifyV1 e s rel c = replacer e { s with tmpSha := some sha.content } rel.tag_name 2 := by
  simp [verifyV1, hsa, hsd, hcmp]

theorem verifyV2_eq_mismatch {e : Env} {s : FsState} {rel : Release} {c : String} {sha : Asset}
    (hsa : findAsset rel.assets e.shaAssetName = some sha)
    (hsd : e.shaDownloadOk = true)
    (hcmp : eqCI (expectedV2 sha.content) (lowerStr (e.sha256 c)) = false) :
    verifyV2 e s rel c =
      ⟨{ s with tmpSha := some sha.content, tmpDb := none }, .err "SHA256 mismatch", 2⟩ := by
  simp [verifyV2, hsa, hsd, hcmp]

theorem verifyV1_eq_mismatch {e : Env} {s : FsState} {rel : Release} {c : String} {sha : Asset}
    (hsa : findAsset rel.assets e.shaAssetName = some sha)
    (hsd : e.shaDownloadOk = true)
    (hcmp : eqCI (lowerStr (expectedV1 sha.content)) (lowerStr (e.sha256 c)) = false) :
    verifyV1 e s rel c =
      ⟨{ s with tmpSha := some sha.content }, .err "SHA256 mismatch", 2⟩ := by
  simp [verifyV1, hsa, hsd, hcmp]

theorem syncV2_skip {e : Env} {s : FsState} {pr : String × String} {rel : Release}
    (hrc : resolveCoords e.owner e.repo e.remoteUrl = some pr)
    (hrel : e.release = some rel)
    (hsk : (eqCI rel.tag_name (localTagV2 s.marker) && s.replica.isSome) = true) :
    syncV2 e s = ⟨s, .skipped, 0⟩ := by
  simp [syncV2, hrc, hrel, hsk]

theorem syncV1_skip {e : Env} {s : FsState} {pr : String × String} {rel : Release}
    (hrc : resolveCoords e.owner e.repo e.remoteUrl = some pr)
    (hrel : e.release = some rel)
    (hsk : (eqCI rel.tag_name (localTagV1 s.marker) && s.replica.isSome) = true) :
    syncV1 e s = ⟨s, .skipped, 0⟩ := by
  simp [syncV1, hrc, hrel, hsk]

theorem syncV2_ok (e : Env) (s : FsState) (h : (syncV2 e s).outcome = .ok) :
    ∃ rel asset,
      e.release = some rel ∧
      findAsset rel.assets e.assetName = some asset ∧
      (syncV2 e s).fs.marker = some (markerWrite rel.tag_name) ∧
      (syncV2 e s).fs.replica = some asset.content ∧
      (syncV2 e s).fs.tmpDb = none ∧
      (syncV2 e s).fs.backups =
        (match s.replica with
         | some old => writeFileL s.backups (backupName e.ts) old
         | none => s.backups) ∧
      e.moveOk = true ∧ e.markerWriteOk = true := by
  cases hrc : resolveCoords e.owner e.repo e.remoteUrl with
  | none =>
    rw [show syncV2 e s = ⟨s, .err "cannot determine owner and repo", 0⟩ from by
      simp [syncV2, hrc]] at h
    simp at h
  | some pr =>
  cases hrel : e.release with
  | none =>
    rw [show syncV2 e s = ⟨s, .err "release query failed", 0⟩ from by
      simp [syncV2, hrc, hrel]] at h
    simp at h
  | some rel =>
  cases hsk : (eqCI rel.tag_name (localTagV2 s.marker) && s.replica.isSome) with
  | true =>
    rw [syncV2_skip hrc hrel hsk] at h
    simp at h
  | false =>
  cases hfa : findAsset rel.assets e.assetName with
  | none =>
    rw [show syncV2 e s = ⟨s, .err "asset not found", 0⟩ from by
      simp [syncV2, hrc, hrel, hsk, hfa]] at h
    simp at h
  | some asset =>
  cases hdl : e.dbDownloadOk with
  | false =>
    rw [show syncV2 e s = ⟨s, .err "download failed", 1⟩ from by
      simp [syncV2, hrc, hrel, hsk, hfa, hdl]] at h
    simp at h
  | true =>
  rw [syncV2_eq_verify hrc hrel hsk hfa hdl] at h ⊢
  cases hsa : findAsset rel.assets e.shaAssetName with
  | none =>
    rw [verifyV2_eq_noSha hsa] at h ⊢
    obtain ⟨hmv, hmk, h1, h2, h3, _, h5, _⟩ :=
      replacer_ok e { s with tmpDb := some asset.content } rel.tag_name 1 h
    exact ⟨rel, asset, rfl, hfa, h1, h2, h3, h5, hmv, hmk⟩
  | some sha =>
  cases hsd : e.shaDownloadOk with
  | false =>
    rw [show verifyV2 e { s with tmpDb := some asset.content } rel asset.content =
        ⟨{ s with tmpDb := some asset.content }, .err "sha download failed", 2⟩ from by
      simp [verifyV2, hsa, hsd]] at h
    simp at h
  | true =>
  cases hcmp : eqCI (expectedV2 sha.content) (lowerStr (e.sha256 asset.content)) with
  | false =>
    rw [verifyV2_eq_mismatch hsa hsd hcmp] at h
    simp at h
  | true =>
  rw [verifyV2_eq_match hsa hsd hcmp] at h ⊢
  obtain ⟨hmv, hmk, h1, h2, h3, _, h5, _⟩ :=
    replacer_ok e { s with tmpDb := some asset.content, tmpSha := some sha.content }
      rel.tag_name 2 h
  exact ⟨rel, asset, rfl, hfa, h1, h2, h3, h5, hmv, hmk⟩

theorem syncV1_ok (e : Env) (s : FsState) (h : (syncV1 e s).outcome = .ok) :
    ∃ rel asset,
      e.release = some rel ∧
      findAsset rel.assets e.assetName = some asset ∧
      (syncV1 e s).fs.marker = some (markerWrite rel.tag_name) ∧
      (syncV1 e s).fs.replica = some asset.content ∧
      (syncV1 e s).fs.tmpDb = none ∧
      (syncV1 e s).fs.backups =
        (match s.replica with
         | some old => writeFileL s.backups (backupName e.ts) old
         | none => s.backups) ∧
      e.moveOk = true ∧ e.markerWriteOk = true := by
  cases hrc : resolveCoords e.owner e.repo e.remoteUrl with
  | none =>
    rw [show syncV1 e s = ⟨s, .err "cannot determine owner and repo", 0⟩ from by
      simp [syncV1, hrc]] at h
    simp at h
  | some pr =>
  cases hrel : e.release with
  | none =>
    rw [show syncV1 e s = ⟨s, .err "release query failed", 0⟩ from by
      simp [syncV1, hrc, hrel]] at h
    simp at h
  | some rel =>
  cases hsk : (eqCI rel.tag_name (localTagV1 s.marker) && s.replica.isSome) with
  | true =>
    rw [syncV1_skip hrc hrel hsk] at h
    simp at h
  | false =>
  cases hfa : findAsset rel.assets e.assetName with
  | none =>
    rw [show syncV1 e s = ⟨s, .err "asset not found", 0⟩ from by
      simp [syncV1, hrc, hrel, hsk, hfa]] at h
    simp at h
  | some asset =>
  cases hdl : e.dbDownloadOk with
  | false =>
    rw [show syncV1 e s = ⟨s, .err "download failed", 1⟩ from by
      simp [syncV1, hrc, hrel, hsk, hfa, hdl]] at h
    simp at h
  | true =>
  rw [syncV1_eq_verify hrc hrel hsk hfa hdl] at h ⊢
  cases hsa : findAsset rel.assets e.shaAssetName with
  | none =>
    rw [verifyV1_eq_noSha hsa] at h ⊢
    obtain ⟨hmv, hmk, h1, h2, h3, _, h5, _⟩ :=
      replacer_ok e { s with tmpDb := some asset.content } rel.tag_name 1 h
    exact ⟨rel, asset, rfl, hfa, h1, h2, h3, h5, hmv, hmk⟩
  | some sha =>
  cases hsd : e.shaDownloadOk with
  | false =>
    rw [show verifyV1 e { s with tmpDb := some asset.content } rel asset.content =
        ⟨{ s with tmpDb := some asset.content }, .err "sha download failed", 2⟩ from by
      simp [verifyV1, hsa, hsd]] at h
    simp at h
  | true =>
  cases hcmp : eqCI (lowerStr (expectedV1 sha.content)) (lowerStr (e.sha256 asset.content)) with
  | false =>
    rw [verifyV1_eq_mismatch hsa hsd hcmp] at h
    simp at h
  | true =>
  rw [verifyV1_eq_match hsa hsd hcmp] at h ⊢
  obtain ⟨hmv, hmk, h1, h2, h3, _, h5, _⟩ :=
    replacer_ok e { s with tmpDb := some asset.content, tmpSha := some sha.content }
      rel.tag_name 2 h
  exact ⟨rel, asset, rfl, hfa, h1, h2, h3, h5, hmv, hmk⟩

theorem syncV2_err (e : Env) (s : FsState) (hm : e.markerWriteOk = true)
    (h : (syncV2 e s).outcome.isErr = true) :
    (syncV2 e s).fs.replica = s.replica ∧ (syncV2 e s).fs.marker = s.marker := by
  cases hrc : resolveCoords e.owner e.repo e.remoteUrl with
  | none =>
    rw [show syncV2 e s = ⟨s, .err "cannot determine owner and repo", 0⟩ from by
      simp [syncV2, hrc]]
    exact ⟨rfl, rfl⟩
  | some pr =>
  cases hrel : e.release with
  | none =>
    rw [show syncV2 e s = ⟨s, .err "release query failed", 0⟩ from by
      simp [syncV2, hrc, hrel]]
    exact ⟨rfl, rfl⟩
  | some rel =>
  cases hsk : (eqCI rel.tag_name (localTagV2 s.marker) && s.replica.isSome) with
  | true =>
    rw [syncV2_skip hrc hrel hsk] at h
    simp [Outcome.isErr] at h
  | false =>
  cases hfa : findAsset rel.assets e.assetName with
  | none =>
    rw [show syncV2 e s = ⟨s, .err "asset not found", 0⟩ from by
      simp [syncV2, hrc, hrel, hsk, hfa]]
    exact ⟨rfl, rfl⟩
  | some asset =>
  cases hdl : e.dbDownloadOk with
  | false =>
    rw [show syncV2 e s = ⟨s, .err "download failed", 1⟩ from by
      simp [syncV2, hrc, hrel, hsk, hfa, hdl]]
    exact ⟨rfl, rfl⟩
  | true =>
  rw [syncV2_eq_verify hrc hrel hsk hfa hdl] at h ⊢
  cases hsa : findAsset rel.assets e.shaAssetName with
  | none =>
    rw [verifyV2_eq_noSha hsa] at h ⊢
    exact replacer_err e { s with tmpDb := some asset.content } rel.tag_name 1 hm h
  | some sha =>
  cases hsd : e.shaDownloadOk with
  | false =>
    rw [show verifyV2 e { s with tmpDb := some asset.content } rel asset.content =
        ⟨{ s with tmpDb := some asset.content }, .err "sha download failed", 2⟩ from by
      simp [verifyV2, hsa, hsd]]
    exact ⟨rfl, rfl⟩
  | true =>
  cases hcmp : eqCI (expectedV2 sha.content) (lowerStr (e.sha256 asset.content)) with
  | false =>
    rw [verifyV2_eq_mismatch hsa hsd hcmp]
    exact ⟨rfl, rfl⟩
  | true =>
  rw [verifyV2_eq_match hsa hsd hcmp] at h ⊢
  exact replacer_err e { s with tmpDb := some asset.content, tmpSha := some sha.content }
    rel.tag_name 2 hm h

theorem syncV1_err (e : Env) (s : FsState) (hm : e.markerWriteOk = true)
    (h : (syncV1 e s).outcome.isErr = true) :
    (syncV1 e s).fs.replica = s.replica ∧ (syncV1 e s).fs.marker = s.marker := by
  cases hrc : resolveCoords e.owner e.repo e.remoteUrl with
  | none =>
    rw [show syncV1 e s = ⟨s, .err "cannot determine owner and repo", 0⟩ from by
      simp [syncV1, hrc]]
    exact ⟨rfl, rfl⟩
  | some pr =>
  cases hrel : e.release with
  | none =>
    rw [show syncV1 e s = ⟨s, .err "release query failed", 0⟩ from by
      simp [syncV1, hrc, hrel]]
    exact ⟨rfl, rfl⟩
  | some rel =>
  cases hsk : (eqCI rel.tag_name (localTagV1 s.marker) && s.replica.isSome) with
  | true =>
    rw [syncV1_skip hrc hrel hsk] at h
    simp [Outcome.isErr] at h
  | false =>
  cases hfa : findAsset rel.assets e.assetName with
  | none =>
    rw [show syncV1 e s = ⟨s, .err "asset not found", 0⟩ from by
      simp [syncV1, hrc, hrel, hsk, hfa]]
    exact ⟨rfl, rfl⟩
  | some asset =>
  cases hdl : e.dbDownloadOk with
  | false =>
    rw [show syncV1 e s = ⟨s, .err "download failed", 1⟩ from by
      simp [syncV1, hrc, hrel, hsk, hfa, hdl]]
    exact ⟨rfl, rfl⟩
  | true =>
  rw [syncV1_eq_verify hrc hrel hsk hfa hdl] at h ⊢
  cases hsa : findAsset rel.assets e.shaAssetName with
  | none =>
    rw [verifyV1_eq_noSha hsa] at h ⊢
    exact replacer_err e { s with tmpDb := some asset.content } rel.tag_name 1 hm h
  | some sha =>
  cases hsd : e.shaDownloadOk with
  | false =>
    rw [show verifyV1 e { s with tmpDb := some asset.content } rel asset.content =
        ⟨{ s with tmpDb := some asset.content }, .err "sha download failed", 2⟩ from by
      simp [verifyV1, hsa, hsd]]
    exact ⟨rfl, rfl⟩
  | true =>
  cases hcmp : eqCI (lowerStr (expectedV1 sha.content)) (lowerStr (e.sha256 asset.content)) with
  | false =>
    rw [verifyV1_eq_mismatch hsa hsd hcmp]
    exact ⟨rfl, rfl⟩
  | true =>
  rw [verifyV1_eq_match hsa hsd hcmp] at h ⊢
  exact replacer_err e { s with tmpDb := some asset.content, tmpSha := some sha.content }
    rel.tag_name 2 hm h

theorem replacer_not_skipped (e : Env) (s : FsState) (tag : String) (d : Nat) :
    (replacer e s tag d).outcome ≠ .skipped := by
  cases hrep : s.replica with
  | none =>
    cases hmv : e.moveOk with
    | false => simp [replacer, replacerMove, hrep, hmv]
    | true =>
      cases hmk : e.markerWriteOk with
      | false => simp [replacer, replacerMove, replacerCommit, hrep, hmv, hmk]
      | true => simp [replacer, replacerMove, replacerCommit, hrep, hmv, hmk]
  | some old =>
    cases hbk : e.backupOk with
    | false => simp [replacer, hrep, hbk]
    | true =>
      cases hmv : e.moveOk with
      | false => simp [replacer, replacerMove, hrep, hbk, hmv]
      | true =>
        cases hmk : e.markerWriteOk with
        | false => simp [replacer, replacerMove, replacerCommit, hrep, hbk, hmv, hmk]
        | true => simp [replacer, replacerMove, replacerCommit, hrep, hbk, hmv, hmk]

theorem syncV2_skipped (e : Env) (s : FsState)
    (h : (syncV2 e s).outcome = .skipped) :
    syncV2 e s = ⟨s, .skipped, 0⟩ ∧
    ∃ rel, e.release = some rel ∧
      (eqCI rel.tag_name (localTagV2 s.marker) && s.replica.isSome) = true := by
  cases hrc : resolveCoords e.owner e.repo e.remoteUrl with
  | none =>
    rw [show syncV2 e s = ⟨s, .err "cannot determine owner and repo", 0⟩ from by
      simp [syncV2, hrc]] at h
    simp at h
  | some pr =>
  cases hrel : e.release with
  | none =>
    rw [show syncV2 e s = ⟨s, .err "release query failed", 0⟩ from by
      simp [syncV2, hrc, hrel]] at h
    simp at h
  | some rel =>
  cases hsk : (eqCI rel.tag_name (localTagV2 s.marker) && s.replica.isSome) with
  | true => exact ⟨syncV2_skip hrc hrel hsk, rel, rfl, hsk⟩
  | false =>
  cases hfa : findAsset rel.assets e.assetName with
  | none =>
    rw [show syncV2 e s = ⟨s, .err "asset not found", 0⟩ from by
      simp [syncV2, hrc, hrel, hsk, hfa]] at h
    simp at h
  | some asset =>
  cases hdl : e.dbDownloadOk with
  | false =>
    rw [show syncV2 e s = ⟨s, .err "download failed", 1⟩ from by
      simp [syncV2, hrc, hrel, hsk, hfa, hdl]] at h
    simp at h
  | true =>
  rw [syncV2_eq_verify hrc hrel hsk hfa hdl] at h
  cases hsa : findAsset rel.assets e.shaAssetName with
  | none =>
    rw [verifyV2_eq_noSha hsa] at h
    exact absurd h (replacer_not_skipped _ _ _ _)
  | some sha =>
  cases hsd : e.shaDownloadOk with
  | false =>
    rw [show verifyV2 e { s with tmpDb := some asset.content } rel asset.content =
        ⟨{ s with tmpDb := some asset.content }, .err "sha download failed", 2⟩ from by
      simp [verifyV2, hsa, hsd]] at h
    simp at h
  | true =>
  cases hcmp : eqCI (expectedV2 sha.content) (lowerStr (e.sha256 asset.content)) with
  | false =>
    rw [verifyV2_eq_mismatch hsa hsd hcmp] at h
    simp at h
  | true =>
  rw [verifyV2_eq_match hsa hsd hcmp] at h
  exact absurd h (replacer_not_skipped _ _ _ _)

theorem takeWhile_append_stop2 {α} (p : α → Bool) (a : α) :
    ∀ (l₁ l₂ : List α), p a = false →
      (l₁ ++ a :: l₂).takeWhile p = l₁.takeWhile p
  | [], l₂, ha => by
    rw [List.nil_append, List.takeWhile_nil,
      List.takeWhile_cons_of_neg (by simp [ha])]
  | b :: l, l₂, ha => by
    by_cases hb : p b = true
    · simp only [List.cons_append, List.takeWhile_cons_of_pos hb,
        takeWhile_append_stop2 p a l l₂ ha]
    · simp [List.takeWhile_cons_of_neg hb]

theorem trimList_eq_self {l : List Char} (h : ∀ c ∈ l, c.isWhitespace = false) :
    trimList l = l := by
  unfold trimList
  have h1 : l.dropWhile Char.isWhitespace = l := by
    cases l with
    | nil => rfl
    | cons c cs => exact List.dropWhile_cons_of_neg (by simp [h c (List.mem_cons_self c cs)])
  rw [h1]
  have h2 : l.reverse.dropWhile Char.isWhitespace = l.reverse := by
    cases hr : l.reverse with
    | nil => rfl
    | cons c cs =>
      have hc : c ∈ l := by
        rw [← List.mem_reverse, hr]
        exact List.mem_cons_self c cs
      exact List.dropWhile_cons_of_neg (by simp [h c hc])
  rw [h2, List.reverse_reverse]

theorem trimList_append_strong (p s' : List Char)
    (hp : p ≠ [])
    (h0 : p.dropWhile Char.isWhitespace = p)
    (hl : p.reverse.dropWhile Char.isWhitespace = p.reverse) :
    ∃ t, trimList (p ++ s') = p ++ t := by
  unfold trimList
  have hfront : (p ++ s').dropWhile Char.isWhitespace = p ++ s' := by
    rw [dropWhile_append_left _ p s' (by rw [h0]; exact hp), h0]
  rw [hfront, List.reverse_append]
  by_cases hs : s'.reverse.dropWhile Char.isWhitespace = []
  · rw [dropWhile_append_all _ _ _ (List.dropWhile_eq_nil_iff.1 hs), hl, List.reverse_reverse]
    exact ⟨[], by simp⟩
  · rw [dropWhile_append_left _ _ _ hs, List.reverse_append, List.reverse_reverse]
    exact ⟨(s'.reverse.dropWhile Char.isWhitespace).reverse, rfl⟩

theorem firstHex64L_here (l rest : List Char) (hlen : l.length = 64)
    (hhex : ∀ c ∈ l, isHexChar c = true) :
    firstHex64L (l ++ rest) = some l.asString := by
  cases l with
  | nil => simp at hlen
  | cons c cs =>
    have htake : ((c :: cs) ++ rest).take 64 = c :: cs := List.take_left' hlen
    rw [List.cons_append]
    rw [show firstHex64L (c :: (cs ++ rest)) =
        (if ((c :: (cs ++ rest)).take 64).length == 64
            && ((c :: (cs ++ rest)).take 64).all isHexChar
         then some ((c :: (cs ++ rest)).take 64).asString
         else firstHex64L (cs ++ rest)) from rfl]
    rw [show c :: (cs ++ rest) = (c :: cs) ++ rest from rfl, htake, hlen]
    simp [List.all_eq_true.2 hhex]

theorem matchOwnerRepo_std (o2L r2L tail2 : List Char)
    (ho : o2L ≠ []) (ho' : ∀ c ∈ o2L, (c != '/') = true)
    (hr : r2L ≠ []) (hr' : ∀ c ∈ r2L, (c != '/' && c != '.') = true)
    (htail : tail2 = [] ∨ tail2 = ['.', 'g', 'i', 't'] ∨ tail2 = ['.', 'G', 'I', 'T']) :
    matchOwnerRepo (o2L ++ '/' :: (r2L ++ tail2)) = some (o2L.asString, r2L.asString) := by
  have howner : (o2L ++ '/' :: (r2L ++ tail2)).takeWhile (fun c => c != '/') = o2L :=
    takeWhile_append_stop _ o2L '/' _ ho' (by decide)
  have hrepo : (r2L ++ tail2).takeWhile (fun c => c != '/' && c != '.') = r2L := by
    rcases htail with rfl | rfl | rfl
    · rw [List.append_nil]
      exact List.takeWhile_eq_self_iff.2 (fun c hc => by simp [hr' c hc])
    · exact takeWhile_append_stop _ r2L '.' _ hr' (by decide)
    · exact takeWhile_append_stop _ r2L '.' _ hr' (by decide)
  have hoe : o2L.isEmpty = false := by
    cases o2L
    · exact absurd rfl ho
    · rfl
  have hre : r2L.isEmpty = false := by
    cases r2L
    · exact absurd rfl hr
    · rfl
  have htt : (tail2.isEmpty || eqCIList tail2 ".git".toList) = true := by
    rcases htail with rfl | rfl | rfl <;> decide
  simp only [matchOwnerRepo, howner, List.drop_left, hoe, Bool.false_eq_true, if_false,
    hrepo, hre, htt, if_true]

theorem scanRemote_https (rest : List Char) :
    scanRemote
      ('h' :: 't' :: 't' :: 'p' :: 's' :: ':' :: '/' :: '/' :: 'g' :: 'i' :: 't' :: 'h' :: 'u' :: 'b' :: '.' :: 'c' :: 'o' :: 'm' :: '/' :: rest)
      = match matchOwnerRepo rest with
        | some p => some p
        | none => scanRemote ('i' :: 't' :: 'h' :: 'u' :: 'b' :: '.' :: 'c' :: 'o' :: 'm' :: '/' :: rest) := rfl

theorem scanRemote_https_mixedcase (rest : List Char) :
    scanRemote
      ('h' :: 't' :: 't' :: 'p' :: 's' :: ':' :: '/' :: '/' :: 'G' :: 'i' :: 't' :: 'H' :: 'u' :: 'b' :: '.' :: 'c' :: 'o' :: 'm' :: '/' :: rest)
      = match matchOwnerRepo rest with
        | some p => some p
        | none => scanRemote ('i' :: 't' :: 'H' :: 'u' :: 'b' :: '.' :: 'c' :: 'o' :: 'm' :: '/' :: rest) := rfl

/-! ### Claim theorems -/

/-- C1 (counterexample): a run in which every stage up to and including the
move succeeds but the Replacer's final marker-write step fails.  The claim
says any Replacer-step failure leaves the replica byte-identical to its
pre-run content; here the post-run replica holds the new artifact instead of
the pre-run `OLD` content. -/
theorem c1_counterexample :
    ((syncV2 { baseEnv with release := some relV2N, markerWriteOk := false }
      ⟨some "OLD", some (markerWrite "v1"), [], none, none⟩).outcome.isErr = true) ∧
    (syncV2 { baseEnv with release := some relV2N, markerWriteOk := false }
      ⟨some "OLD", some (markerWrite "v1"), [], none, none⟩).fs.replica ≠ some "OLD" := by
  decide

/-- C1 (amended): in both variants, provided the final marker write is the one
step that does not fail, every failing run leaves the replica and the marker
byte-identical to their pre-run contents; and every run that completes
installs the new tag into the marker and, when a replica pre-existed (and the
timestamped backup name is fresh), creates exactly one new backup — none when
no replica pre-existed.  When the marker write itself fails after the move,
the replica already holds the new artifact (see the counterexample). -/
theorem c1_amended (e : Env) (s : FsState)
    (hm : e.markerWriteOk = true)
    (hfresh : readFileL s.backups (backupName e.ts) = none) :
    (((syncV1 e s).outcome.isErr = true →
        (syncV1 e s).fs.replica = s.replica ∧ (syncV1 e s).fs.marker = s.marker) ∧
      ((syncV1 e s).outcome = .ok →
        ∃ rel, e.release = some rel ∧
          (syncV1 e s).fs.marker = some (markerWrite rel.tag_name) ∧
          (∀ c, s.replica = some c →
            (syncV1 e s).fs.backups = s.backups ++ [(backupName e.ts, c)]) ∧
          (s.replica = none → (syncV1 e s).fs.backups = s.backups))) ∧
    (((syncV2 e s).outcome.isErr = true →
        (syncV2 e s).fs.replica = s.replica ∧ (syncV2 e s).fs.marker = s.marker) ∧
      ((syncV2 e s).outcome = .ok →
        ∃ rel, e.release = some rel ∧
          (syncV2 e s).fs.marker = some (markerWrite rel.tag_name) ∧
          (∀ c, s.replica = some c →
            (syncV2 e s).fs.backups = s.backups ++ [(backupName e.ts, c)]) ∧
          (s.replica = none → (syncV2 e s).fs.backups = s.backups))) := by
  refine ⟨⟨syncV1_err e s hm, ?_⟩, ⟨syncV2_err e s hm, ?_⟩⟩
  · intro hok
    obtain ⟨rel, asset, hrel, hfa, h1, h2, h3, h5, hmv, hmk⟩ := syncV1_ok e s hok
    refine ⟨rel, hrel, h1, ?_, ?_⟩
    · intro c hc
      rw [h5, hc]
      exact writeFileL_fresh s.backups c hfresh
    · intro hc
      rw [h5, hc]
  · intro hok
    obtain ⟨rel, asset, hrel, hfa, h1, h2, h3, h5, hmv, hmk⟩ := syncV2_ok e s hok
    refine ⟨rel, hrel, h1, ?_, ?_⟩
    · intro c hc
      rw [h5, hc]
      exact writeFileL_fresh s.backups c hfresh
    · intro hc
      rw [h5, hc]

/-- C1 (witness): the amended theorem applied to a concrete first-time sync
(no pre-existing replica): the backup set stays empty. -/
theorem c1_witness :
    (syncV2 { baseEnv with release := some relV3 }
      ⟨none, none, [], none, none⟩).fs.backups = [] := by
  have h := c1_amended { baseEnv with release := some relV3 }
    ⟨none, none, [], none, none⟩ rfl rfl
  obtain ⟨rel, hrel, h1, hsome, hnone⟩ := h.2.2 (by decide)
  exact hnone rfl

/-- C5: on every run of either variant that completes, the backup path is the
replica path suffixed `.bak.<timestamp>` (the timestamp produced with the
sortable `Get-Date` format recorded in `tsFormat`); when a replica pre-existed
and the timestamped name is fresh, exactly one new backup appears, holding the
pre-run replica content byte-for-byte; when no replica pre-existed, no backup
is created. -/
theorem c5_backup (e : Env) (s : FsState)
    (hfresh : readFileL s.backups (backupName e.ts) = none) :
    tsFormat = "yyyyMMdd-HHmmss" ∧
    backupName e.ts = "db.sqlite3.bak." ++ e.ts ∧
    ((syncV1 e s).outcome = .ok →
      (∀ c, s.replica = some c →
        (syncV1 e s).fs.backups = s.backups ++ [(backupName e.ts, c)]) ∧
      (s.replica = none → (syncV1 e s).fs.backups = s.backups)) ∧
    ((syncV2 e s).outcome = .ok →
      (∀ c, s.replica = some c →
        (syncV2 e s).fs.backups = s.backups ++ [(backupName e.ts, c)]) ∧
      (s.replica = none → (syncV2 e s).fs.backups = s.backups)) := by
  refine ⟨rfl, rfl, ?_, ?_⟩
  · intro hok
    obtain ⟨rel, asset, hrel, hfa, h1, h2, h3, h5, hmv, hmk⟩ := syncV1_ok e s hok
    refine ⟨?_, ?_⟩
    · intro c hc
      rw [h5, hc]
      exact writeFileL_fresh s.backups c hfresh
    · intro hc
      rw [h5, hc]
  · intro hok
    obtain ⟨rel, asset, hrel, hfa, h1, h2, h3, h5, hmv, hmk⟩ := syncV2_ok e s hok
    refine ⟨?_, ?_⟩
    · intro c hc
      rw [h5, hc]
      exact writeFileL_fresh s.backups c hfresh
    · intro hc
      rw [h5, hc]

/-- C5 (witness): a successful sync over a pre-existing replica `OLD` creates
exactly the one timestamped backup holding `OLD`. -/
theorem c5_witness :
    (syncV2 { baseEnv with release := some relV3 }
      ⟨some "OLD", none, [], none, none⟩).fs.backups
      = [("db.sqlite3.bak.20260101-000000", "OLD")] := by
  have h := c5_backup { baseEnv with release := some relV3 }
    ⟨some "OLD", none, [], none, none⟩ rfl
  have h2 := (h.2.2.2 (by decide)).1 "OLD" rfl
  exact h2

/-- C6: when the release carries the configured primary asset but no asset
named like the checksum asset, verification is skipped as a no-op: with no
local marker and no local replica, both variants complete with exit code 0,
install the downloaded artifact as the replica, set the marker to the remote
tag, and create no backup. -/
theorem c6_no_checksum (e : Env) (s : FsState) (pr : String × String) (rel : Release)
    (asset : Asset)
    (hrc : resolveCoords e.owner e.repo e.remoteUrl = some pr)
    (hrel : e.release = some rel)
    (hfa : findAsset rel.assets e.assetName = some asset)
    (hsa : findAsset rel.assets e.shaAssetName = none)
    (hdl : e.dbDownloadOk = true) (hmv : e.moveOk = true) (hmk : e.markerWriteOk = true)
    (hrep : s.replica = none) (hmkr : s.marker = none) :
    syncV1 e s = syncV2 e s ∧
    (syncV2 e s).outcome = .ok ∧
    (syncV2 e s).outcome.exitCode = 0 ∧
    (syncV2 e s).fs.replica = some asset.content ∧
    (syncV2 e s).fs.marker = some (markerWrite rel.tag_name) ∧
    (syncV2 e s).fs.backups = s.backups := by
  have hskV2 : (eqCI rel.tag_name (localTagV2 s.marker) && s.replica.isSome) = false := by
    rw [hrep]; simp
  have hskV1 : (eqCI rel.tag_name (localTagV1 s.marker) && s.replica.isSome) = false := by
    rw [hrep]; simp
  rw [syncV2_eq_verify hrc hrel hskV2 hfa hdl, syncV1_eq_verify hrc hrel hskV1 hfa hdl,
    verifyV2_eq_noSha hsa, verifyV1_eq_noSha hsa]
  simp [replacer, replacerMove, replacerCommit, hrep, hmv, hmk, Outcome.exitCode]

/-- C6 (witness): end-to-end scenario A at tag `v3`: marker absent, replica
absent, no checksum asset — the marker becomes `v3`. -/
theorem c6_witness :
    (syncV2 { baseEnv with release := some relV3 }
      ⟨none, none, [], none, none⟩).fs.marker = some (markerWrite "v3") := by
  have h := c6_no_checksum { baseEnv with release := some relV3 }
    ⟨none, none, [], none, none⟩ ("o", "r") relV3 ⟨"db_release.sqlite3", "NEWDB"⟩
    (by decide) rfl (by decide) (by decide) rfl rfl rfl rfl rfl
  exact h.2.2.2.2.1

/-- C9: the hook installer targets exactly the three slots post-checkout,
post-merge and post-rewrite; when a repository root and the hooks directory
are found it succeeds, writing the no-argument sync stub into each of the
three slots whatever their prior content was, and touching no other file; when
the hooks directory is missing it fails and writes nothing. -/
theorem c9_installer (e : HookEnv) :
    hookTargets = ["post-checkout.bat", "post-merge.bat", "post-rewrite.bat"] ∧
    (e.repoRootOk = true → e.hooksDirOk = true →
      (installHooks e).2 = .ok ∧
      (∀ t ∈ hookTargets, readFileL (installHooks e).1 t = some hookStub) ∧
      (∀ nm, nm ∉ hookTargets → readFileL (installHooks e).1 nm = readFileL e.hooks nm)) ∧
    (e.repoRootOk = true → e.hooksDirOk = false →
      (installHooks e).1 = e.hooks ∧ (installHooks e).2.isErr = true) := by
  refine ⟨rfl, ?_, ?_⟩
  · intro hr hd
    have hinst : (installHooks e).1 =
        writeFileL (writeFileL (writeFileL e.hooks "post-checkout.bat" hookStub)
          "post-merge.bat" hookStub) "post-rewrite.bat" hookStub := by
      simp [installHooks, hr, hd, hookTargets]
    refine ⟨by simp [installHooks, hr, hd], ?_, ?_⟩
    · intro t ht
      rw [hinst]
      simp only [hookTargets, List.mem_cons, List.not_mem_nil, or_false] at ht
      rcases ht with rfl | rfl | rfl
      · rw [readFileL_writeFileL_ne _ _ (by decide), readFileL_writeFileL_ne _ _ (by decide),
          readFileL_writeFileL_self]
      · rw [readFileL_writeFileL_ne _ _ (by decide), readFileL_writeFileL_self]
      · rw [readFileL_writeFileL_self]
    · intro nm hnm
      rw [hinst]
      simp only [hookTargets, List.mem_cons, List.not_mem_nil, or_false, not_or] at hnm
      obtain ⟨h1, h2, h3⟩ := hnm
      rw [readFileL_writeFileL_ne _ _ (beq_eq_false_iff_ne.2 h3),
        readFileL_writeFileL_ne _ _ (beq_eq_false_iff_ne.2 h2),
        readFileL_writeFileL_ne _ _ (beq_eq_false_iff_ne.2 h1)]
  · intro hr hd
    exact ⟨by simp [installHooks, hr, hd], by simp [installHooks, hr, hd, Outcome.isErr]⟩

/-- C9 (witness): installing over a hooks directory that already carries an
old `post-merge` stub replaces it with the current stub. -/
theorem c9_witness :
    readFileL (installHooks ⟨true, true, [("post-merge.bat", "OLD")]⟩).1 "post-merge.bat"
      = some hookStub := by
  have h := c9_installer ⟨true, true, [("post-merge.bat", "OLD")]⟩
  exact (h.2.1 rfl rfl).2.1 "post-merge.bat" (by simp [hookTargets])

/-- C10 (counterexample): variant 1's marker reader does not strip the line
terminator the writer appends, so the write/read round trip is not the
identity on the trimmed tag `v3`: the reader returns the raw content with the
trailing CRLF. -/
theorem c10_counterexample : localTagV1 (some (markerWrite "v3")) ≠ "v3" := by decide

/-- C10 (amended): for variant 2's reader the round trip is the identity: for
every tag with no leading or trailing whitespace, writing the marker (which
appends a line terminator) and then reading it back (which trims surrounding
whitespace) yields the same tag.  Variant 1's reader returns the raw content
including the terminator, so the round trip is not the identity there. -/
theorem c10_amended (tag : String) (h : dotnetTrim tag = tag) :
    localTagV2 (some (markerWrite tag)) = tag := by
  simp only [localTagV2, Option.getD_some]
  rw [dotnetTrim_markerWrite, h]

/-- C10 (witness): the amended round trip at the concrete tag `v3`. -/
theorem c10_witness : localTagV2 (some (markerWrite "v3")) = "v3" :=
  c10_amended "v3" (by decide)

/-- C2 (counterexample): variant 1 is not idempotent: after a successful first
run at tag `v3` (which writes the marker with a trailing line terminator), a
second run with the same release does not skip — it downloads again and adds a
second-run backup, so the post-run-2 state differs from the post-run-1 state
and the second run performs an asset download. -/
theorem c2_counterexample :
    ((syncV1 { baseEnv with release := some relV3 }
        ⟨none, none, [], none, none⟩).outcome = .ok) ∧
    ((syncV1 { baseEnv with release := some relV3, ts := "20260101-000001" }
        (syncV1 { baseEnv with release := some relV3 }
          ⟨none, none, [], none, none⟩).fs).downloads ≠ 0) ∧
    ((syncV1 { baseEnv with release := some relV3, ts := "20260101-000001" }
        (syncV1 { baseEnv with release := some relV3 }
          ⟨none, none, [], none, none⟩).fs).fs
      ≠ (syncV1 { baseEnv with release := some relV3 }
          ⟨none, none, [], none, none⟩).fs) := by
  decide

/-- C2 (amended): when the remote tag equals the local tag as each variant
reads it (variant 2 trims the marker content, variant 1 compares it raw) and
the replica exists, the run short-circuits: zero asset downloads, zero
filesystem mutation, exit code 0.  Running variant 2 twice in a row with no
new release (and a tag free of surrounding whitespace) leaves the state of the
first run untouched: the second run skips with zero downloads.  Variant 1 is
not idempotent in this way (see the counterexample), because its raw marker
read never matches the tag once the writer has appended the line
terminator. -/
theorem c2_amended (e e' : Env) (s : FsState) (pr pr' : String × String)
    (rel rel' : Release)
    (hrc : resolveCoords e.owner e.repo e.remoteUrl = some pr)
    (hrel : e.release = some rel) :
    ((eqCI rel.tag_name (localTagV2 s.marker) && s.replica.isSome) = true →
      syncV2 e s = ⟨s, .skipped, 0⟩ ∧ (syncV2 e s).outcome.exitCode = 0) ∧
    ((eqCI rel.tag_name (localTagV1 s.marker) && s.replica.isSome) = true →
      syncV1 e s = ⟨s, .skipped, 0⟩ ∧ (syncV1 e s).outcome.exitCode = 0) ∧
    (dotnetTrim rel.tag_name = rel.tag_name →
      resolveCoords e'.owner e'.repo e'.remoteUrl = some pr' →
      e'.release = some rel' →
      rel'.tag_name = rel.tag_name →
      ((syncV2 e s).outcome = .ok ∨ (syncV2 e s).outcome = .skipped) →
      syncV2 e' (syncV2 e s).fs = ⟨(syncV2 e s).fs, .skipped, 0⟩) := by
  refine ⟨?_, ?_, ?_⟩
  · intro hsk
    rw [syncV2_skip hrc hrel hsk]
    exact ⟨rfl, rfl⟩
  · intro hsk
    rw [syncV1_skip hrc hrel hsk]
    exact ⟨rfl, rfl⟩
  · intro htag hrc' hrel' htageq hout
    rcases hout with hok | hskip
    · obtain ⟨rel1, asset, hrel1, hfa, h1, h2, h3, h5, hmv, hmk⟩ := syncV2_ok e s hok
      rw [hrel] at hrel1
      obtain rfl : rel = rel1 := Option.some_inj.1 hrel1
      apply syncV2_skip hrc' hrel'
      rw [h1, h2, htageq]
      have hread : localTagV2 (some (markerWrite rel.tag_name)) = rel.tag_name := by
        simp only [localTagV2, Option.getD_some]
        rw [dotnetTrim_markerWrite, htag]
      rw [hread]
      simp [eqCI]
    · obtain ⟨heq, rel1, hrel1, hsk1⟩ := syncV2_skipped e s hskip
      rw [hrel] at hrel1
      obtain rfl : rel = rel1 := Option.some_inj.1 hrel1
      rw [heq]
      apply syncV2_skip hrc' hrel'
      rw [htageq]
      exact hsk1

/-- C2 (witness): variant 2 skips on marker `v3` (with its trailing
terminator), replica present, remote tag `v3`: the state is returned
untouched, zero downloads, outcome `skipped`. -/
theorem c2_witness :
    syncV2 { baseEnv with release := some relV3 }
      ⟨some "NEWDB", some (markerWrite "v3"), [], none, none⟩
      = ⟨⟨some "NEWDB", some (markerWrite "v3"), [], none, none⟩, .skipped, 0⟩ := by
  have h := c2_amended { baseEnv with release := some relV3 }
    { baseEnv with release := some relV3 }
    ⟨some "NEWDB", some (markerWrite "v3"), [], none, none⟩
    ("o", "r") ("o", "r") relV3 relV3 (by decide) rfl
  exact (h.1 (by decide)).1

/-- C3 (counterexample): on a digest mismatch variant 1 does NOT delete the
staged artifact: the failed run leaves the downloaded bytes at the staged
scratch path, contradicting the claim that the sync deletes the staged
artifact on every mismatch. -/
theorem c3_counterexample :
    ((syncV1 { baseEnv with release := some relV4bad }
        ⟨some "OLD", some (markerWrite "v3"), [], none, none⟩).outcome.isErr = true) ∧
    ((syncV1 { baseEnv with release := some relV4bad }
        ⟨some "OLD", some (markerWrite "v3"), [], none, none⟩).fs.tmpDb ≠ none) := by
  decide

/-- C3 (amended): on a digest mismatch (each variant comparing its own
extracted expected digest case-insensitively against the staged artifact's
hash) both variants fail before the Replacer runs: replica, marker and backup
set are unchanged and zero new backups are created.  Variant 2 deletes the
staged artifact; variant 1 leaves it at the staged scratch path. -/
theorem c3_amended (e : Env) (s : FsState) (pr : String × String) (rel : Release)
    (asset sha : Asset)
    (hrc : resolveCoords e.owner e.repo e.remoteUrl = some pr)
    (hrel : e.release = some rel)
    (hskV2 : (eqCI rel.tag_name (localTagV2 s.marker) && s.replica.isSome) = false)
    (hskV1 : (eqCI rel.tag_name (localTagV1 s.marker) && s.replica.isSome) = false)
    (hfa : findAsset rel.assets e.assetName = some asset)
    (hdl : e.dbDownloadOk = true)
    (hsa : findAsset rel.assets e.shaAssetName = some sha)
    (hsd : e.shaDownloadOk = true)
    (hcmp2 : eqCI (expectedV2 sha.content) (lowerStr (e.sha256 asset.content)) = false)
    (hcmp1 : eqCI (lowerStr (expectedV1 sha.content)) (lowerStr (e.sha256 asset.content))
      = false) :
    ((syncV2 e s).outcome.isErr = true ∧
      (syncV2 e s).fs.replica = s.replica ∧
      (syncV2 e s).fs.marker = s.marker ∧
      (syncV2 e s).fs.backups = s.backups ∧
      (syncV2 e s).fs.tmpDb = none) ∧
    ((syncV1 e s).outcome.isErr = true ∧
      (syncV1 e s).fs.replica = s.replica ∧
      (syncV1 e s).fs.marker = s.marker ∧
      (syncV1 e s).fs.backups = s.backups ∧
      (syncV1 e s).fs.tmpDb = some asset.content) := by
  rw [syncV2_eq_verify hrc hrel hskV2 hfa hdl, verifyV2_eq_mismatch hsa hsd hcmp2,
    syncV1_eq_verify hrc hrel hskV1 hfa hdl, verifyV1_eq_mismatch hsa hsd hcmp1]
  exact ⟨⟨rfl, rfl, rfl, rfl, rfl⟩, ⟨rfl, rfl, rfl, rfl, rfl⟩⟩

/-- C3 (witness): the amended theorem at the concrete mismatching release:
variant 2's failed run leaves no staged artifact behind. -/
theorem c3_witness :
    (syncV2 { baseEnv with release := some relV4bad }
      ⟨some "OLD", some (markerWrite "v3"), [], none, none⟩).fs.tmpDb = none := by
  have h := c3_amended { baseEnv with release := some relV4bad }
    ⟨some "OLD", some (markerWrite "v3"), [], none, none⟩
    ("o", "r") relV4bad ⟨"db_release.sqlite3", "NEW"⟩ ⟨"db_release.sha256.txt", hex64b⟩
    (by decide) rfl (by decide) (by decide) (by decide) rfl (by decide) rfl
    (by decide) (by decide)
  exact h.1.2.2.2.2

/-- C4 (counterexample): the program also extracts digests with variant 1's
rule, which is not the claimed one: on a checksum file whose 64-hex digest is
preceded by another token, variant 1 extracts the first space-delimited token
`junk` while the claimed tolerant extraction (implemented by variant 2) yields
the 64-hex substring. -/
theorem c4_counterexample :
    expectedV2 ("junk " ++ hex64b) = hex64b ∧
    expectedV1 ("junk " ++ hex64b) = "junk" ∧
    expectedV1 ("junk " ++ hex64b) ≠ expectedV2 ("junk " ++ hex64b) := by
  decide

/-- C4 (amended): variant 2 extracts exactly as the claim describes — the
trimmed, lower-cased content when it is an anchored 64-hex string, otherwise
the first 64-hex substring of the raw text — and on the particular format
`<64-hex> *<filename>` followed by a newline and arbitrary trailing text, both
variant 2 and variant 1 (which takes the first space-delimited token of the
first line) extract the leading 64-hex token. -/
theorem c4_amended (hex fn junk : String)
    (hlen : hex.toList.length = 64)
    (hhex : ∀ c ∈ hex.toList, c ∈ lowerHexChars) :
    (∀ raw : String, isHex64 (lowerStr (dotnetTrim raw)) = true →
      expectedV2 raw = lowerStr (dotnetTrim raw)) ∧
    (∀ (raw m : String), isHex64 (lowerStr (dotnetTrim raw)) = false →
      firstHex64 raw = some m → expectedV2 raw = lowerStr m) ∧
    expectedV2 (hex ++ " *" ++ fn ++ "\n" ++ junk) = hex ∧
    expectedV1 (hex ++ " *" ++ fn ++ "\n" ++ junk) = hex := by
  have hx : ∀ c ∈ hex.toList, isHexChar c = true := fun c hc => lowerHex_isHexChar (hhex c hc)
  have hnw : ∀ c ∈ hex.toList, c.isWhitespace = false := fun c hc => lowerHex_not_ws (hhex c hc)
  have hlist : (hex ++ " *" ++ fn ++ "\n" ++ junk).toList
      = hex.toList ++ ' ' :: '*' :: (fn.toList ++ '\n' :: junk.toList) := by
    show (((hex.toList ++ [' ', '*']) ++ fn.toList) ++ ['\n']) ++ junk.toList = _
    simp [List.append_assoc]
  refine ⟨?_, ?_, ?_, ?_⟩
  · intro raw h
    simp [expectedV2, h]
  · intro raw m h hm
    simp [expectedV2, h, hm]
  · have hassoc : hex.toList ++ ' ' :: '*' :: (fn.toList ++ '\n' :: junk.toList)
        = (hex.toList ++ [' ', '*']) ++ (fn.toList ++ '\n' :: junk.toList) := by
      simp
    obtain ⟨t, ht⟩ := trimList_append_strong (hex.toList ++ [' ', '*'])
      (fn.toList ++ '\n' :: junk.toList)
      (by simp)
      (by
        cases hc : hex.toList with
        | nil => rw [hc] at hlen; simp at hlen
        | cons c cs =>
          have : c ∈ hex.toList := by rw [hc]; exact List.mem_cons_self c cs
          simp only [hc, List.cons_append]
          exact List.dropWhile_cons_of_neg (by simp [hnw c this]))
      (by
        rw [show (hex.toList ++ [' ', '*']).reverse = '*' :: ' ' :: hex.toList.reverse from by
          simp]
        exact List.dropWhile_cons_of_neg (by decide))
    have hne : isHex64 (lowerStr (dotnetTrim (hex ++ " *" ++ fn ++ "\n" ++ junk))) = false := by
      have hlen2 : (lowerStr (dotnetTrim (hex ++ " *" ++ fn ++ "\n" ++ junk))).length
          = 66 + t.length := by
        unfold lowerStr dotnetTrim
        rw [List.length_asString, List.length_map, List.toList_asString, hlist, hassoc, ht,
          List.length_append, List.length_append, hlen,
          show ([' ', '*'] : List Char).length = 2 from rfl]
      have hbeq : (66 + t.length == 64) = false := by
        rw [beq_eq_false_iff_ne]
        omega
      unfold isHex64
      rw [hlen2, hbeq, Bool.false_and]
    have hfirst : firstHex64 (hex ++ " *" ++ fn ++ "\n" ++ junk) = some hex := by
      unfold firstHex64
      rw [hlist, firstHex64L_here _ _ hlen hx, String.asString_toList]
    rw [show expectedV2 (hex ++ " *" ++ fn ++ "\n" ++ junk) = lowerStr hex from by
      simp [expectedV2, hne, hfirst]]
    exact lowerStr_fix hhex
  · have hl1 : (hex ++ " *" ++ fn ++ "\n" ++ junk).toList.takeWhile (fun c => c != '\n')
        = hex.toList ++ ' ' :: '*' :: (fn.toList.takeWhile (fun c => c != '\n')) := by
      rw [hlist, takeWhile_append_all _ _ _ (fun c hc => lowerHex_ne_lf (hhex c hc)),
        List.takeWhile_cons_of_pos (by decide), List.takeWhile_cons_of_pos (by decide),
        takeWhile_append_stop2 _ '\n' _ _ (by decide)]
    obtain ⟨Z, hZ⟩ : ∃ Z,
        (if (hex.toList ++ ' ' :: '*' :: (fn.toList.takeWhile (fun c => c != '\n'))).getLast?
            == some '\r'
         then (hex.toList ++ ' ' :: '*' :: (fn.toList.takeWhile (fun c => c != '\n'))).dropLast
         else hex.toList ++ ' ' :: '*' :: (fn.toList.takeWhile (fun c => c != '\n')))
        = hex.toList ++ ' ' :: Z := by
      by_cases hg : ((hex.toList ++ ' ' :: '*' ::
          (fn.toList.takeWhile (fun c => c != '\n'))).getLast? == some '\r') = true
      · rw [if_pos hg]
        refine ⟨('*' :: (fn.toList.takeWhile (fun c => c != '\n'))).dropLast, ?_⟩
        rw [show hex.toList ++ ' ' :: '*' :: (fn.toList.takeWhile (fun c => c != '\n'))
            = (hex.toList ++ [' ']) ++ '*' :: (fn.toList.takeWhile (fun c => c != '\n')) from by
          simp, List.dropLast_append_cons]
        simp
      · rw [if_neg hg]
        exact ⟨'*' :: (fn.toList.takeWhile (fun c => c != '\n')), rfl⟩
    show dotnetTrim ((firstLine (hex ++ " *" ++ fn ++ "\n" ++ junk)).toList.takeWhile
        (fun c => c != ' ')).asString = hex
    simp only [firstLine]
    rw [hl1, hZ, List.toList_asString,
      takeWhile_append_stop _ hex.toList ' ' Z
        (fun c hc => lowerHex_ne_space (hhex c hc)) (by decide)]
    unfold dotnetTrim
    rw [List.toList_asString, trimList_eq_self hnw, String.asString_toList]

/-- C4 (witness): the amended theorem at a concrete checksum file
`<64-hex> *db_release.sqlite3` followed by a newline and trailing text: both
variants extract the leading 64-hex token. -/
theorem c4_witness :
    expectedV2 (hex64b ++ " *" ++ "db_release.sqlite3" ++ "\n" ++ " junk") = hex64b ∧
    expectedV1 (hex64b ++ " *" ++ "db_release.sqlite3" ++ "\n" ++ " junk") = hex64b := by
  have h := c4_amended hex64b "db_release.sqlite3" " junk" (by decide) (by decide)
  exact ⟨h.2.2.1, h.2.2.2⟩

/-- C7: the Remote Locator honours explicit parameters (returning them
unchanged, independent of any remote URL), extracts (owner, repo) from a
host-qualified remote URL of the form `host/owner/repo` with an optional
`.git` suffix, and when neither explicit values nor a parseable URL are
available both sync variants fail with zero downloads and no state change —
before any network request. -/
theorem c7_locator (o r o2 r2 : String) (url : Option String) :
    (o ≠ "" → r ≠ "" → ∀ u : Option String, resolveCoords o r u = some (o, r)) ∧
    (o2 ≠ "" → (∀ c ∈ o2.toList, (c != '/') = true) →
      r2 ≠ "" → (∀ c ∈ r2.toList, (c != '/' && c != '.') = true) →
      parseGitRemote ("https://github.com/" ++ o2 ++ "/" ++ r2 ++ ".git") = (o2, r2) ∧
      parseGitRemote ("https://github.com/" ++ o2 ++ "/" ++ r2) = (o2, r2) ∧
      parseGitRemote ("https://GitHub.com/" ++ o2 ++ "/" ++ r2 ++ ".GIT") = (o2, r2)) ∧
    ((o = "" ∨ r = "") → parseGitRemote (url.getD "") = ("", "") →
      resolveCoords o r url = none ∧
      (∀ (e : Env) (s : FsState), e.owner = o → e.repo = r → e.remoteUrl = url →
        ((syncV1 e s).fs = s ∧ (syncV1 e s).outcome.isErr = true ∧
          (syncV1 e s).downloads = 0) ∧
        ((syncV2 e s).fs = s ∧ (syncV2 e s).outcome.isErr = true ∧
          (syncV2 e s).downloads = 0))) := by
  refine ⟨?_, ?_, ?_⟩
  · intro ho hr u
    have ho' : (o == "") = false := beq_eq_false_iff_ne.2 ho
    have hr' : (r == "") = false := beq_eq_false_iff_ne.2 hr
    simp [resolveCoords, ho', hr']
  · intro ho ho' hr hr'
    have hoL : o2.toList ≠ [] := by
      intro hc
      exact ho (by rw [← String.asString_toList o2, hc]; rfl)
    have hrL : r2.toList ≠ [] := by
      intro hc
      exact hr (by rw [← String.asString_toList r2, hc]; rfl)
    refine ⟨?_, ?_, ?_⟩
    · have hlist : ("https://github.com/" ++ o2 ++ "/" ++ r2 ++ ".git").toList
          = 'h' :: 't' :: 't' :: 'p' :: 's' :: ':' :: '/' :: '/' :: 'g' :: 'i' :: 't' :: 'h'
            :: 'u' :: 'b' :: '.' :: 'c' :: 'o' :: 'm' :: '/' :: (o2.toList ++ '/' :: (r2.toList ++ ['.', 'g', 'i', 't'])) := by
        show (((("https://github.com/".toList ++ o2.toList) ++ ['/']) ++ r2.toList)
            ++ ['.', 'g', 'i', 't']) = _
        simp [List.append_assoc]
      unfold parseGitRemote
      rw [hlist, scanRemote_https,
        matchOwnerRepo_std _ _ _ hoL ho' hrL hr' (Or.inr (Or.inl rfl)),
        String.asString_toList, String.asString_toList]
    · have hlist : ("https://github.com/" ++ o2 ++ "/" ++ r2).toList
          = 'h' :: 't' :: 't' :: 'p' :: 's' :: ':' :: '/' :: '/' :: 'g' :: 'i' :: 't' :: 'h'
            :: 'u' :: 'b' :: '.' :: 'c' :: 'o' :: 'm' :: '/' :: (o2.toList ++ '/' :: (r2.toList ++ [])) := by
        show ((("https://github.com/".toList ++ o2.toList) ++ ['/']) ++ r2.toList) = _
        simp [List.append_assoc]
      unfold parseGitRemote
      rw [hlist, scanRemote_https,
        matchOwnerRepo_std _ _ _ hoL ho' hrL hr' (Or.inl rfl),
        String.asString_toList, String.asString_toList]
    · have hlist : ("https://GitHub.com/" ++ o2 ++ "/" ++ r2 ++ ".GIT").toList
          = 'h' :: 't' :: 't' :: 'p' :: 's' :: ':' :: '/' :: '/' :: 'G' :: 'i' :: 't' :: 'H'
            :: 'u' :: 'b' :: '.' :: 'c' :: 'o' :: 'm' :: '/' :: (o2.toList ++ '/' :: (r2.toList ++ ['.', 'G', 'I', 'T'])) := by
        show (((("https://GitHub.com/".toList ++ o2.toList) ++ ['/']) ++ r2.toList)
            ++ ['.', 'G', 'I', 'T']) = _
        simp [List.append_assoc]
      unfold parseGitRemote
      rw [hlist, scanRemote_https_mixedcase,
        matchOwnerRepo_std _ _ _ hoL ho' hrL hr' (Or.inr (Or.inr rfl)),
        String.asString_toList, String.asString_toList]
  · intro ho hparse
    have hcond : (o == "" || r == "") = true := by
      rcases ho with rfl | rfl <;> simp
    have hres : resolveCoords o r url = none := by
      simp [resolveCoords, hcond, hparse]
    refine ⟨hres, ?_⟩
    intro e s he1 he2 he3
    have hres' : resolveCoords e.owner e.repo e.remoteUrl = none := by
      rw [he1, he2, he3]; exact hres
    constructor
    · rw [show syncV1 e s = ⟨s, .err "cannot determine owner and repo", 0⟩ from by
        simp [syncV1, hres']]
      exact ⟨rfl, rfl, rfl⟩
    · rw [show syncV2 e s = ⟨s, .err "cannot determine owner and repo", 0⟩ from by
        simp [syncV2, hres']]
      exact ⟨rfl, rfl, rfl⟩

/-- C7 (witness): the locator theorem at this repository's own remote URL, in
its canonical lower-case spelling and in a mixed-case spelling that
PowerShell's case-insensitive `-match` also accepts. -/
theorem c7_witness :
    parseGitRemote "https://github.com/yoona8030/sencity_backend.git"
      = ("yoona8030", "sencity_backend") ∧
    parseGitRemote "https://GitHub.com/yoona8030/sencity_backend.GIT"
      = ("yoona8030", "sencity_backend") := by
  have h := c7_locator "o" "r" "yoona8030" "sencity_backend" none
  have h2 := h.2.1 (by decide) (by decide) (by decide) (by decide)
  exact ⟨h2.1, h2.2.2⟩

/-- C8 (counterexample): the two variants are not behaviorally equivalent: on
a marker written by a previous run (tag plus line terminator), replica present
and an unchanged remote tag, variant 2 skips while variant 1 re-downloads and
re-installs, so the two runs differ. -/
theorem c8_counterexample :
    syncV1 { baseEnv with release := some relV3 }
        ⟨some "NEWDB", some (markerWrite "v3"), [], none, none⟩
      ≠ syncV2 { baseEnv with release := some relV3 }
        ⟨some "NEWDB", some (markerWrite "v3"), [], none, none⟩ := by
  decide

/-- C8 (amended): the two variants agree on every input state in which (i) the
marker content is invariant under trimming (no surrounding whitespace) and
(ii) variant 1's extracted digest token, lower-cased, equals variant 2's
extracted digest for the release's checksum asset: they then make the same
skip decision, produce the same replica, marker, backup set, staged checksum
and exit code, and the same download count; the staged artifact also agrees
except on a digest mismatch, where variant 2 deletes it and variant 1 keeps
it. -/
theorem c8_amended (e : Env) (s : FsState)
    (hmarker : dotnetTrim (s.marker.getD "") = s.marker.getD "")
    (hagree : ∀ (rel : Release) (sha : Asset), e.release = some rel →
      findAsset rel.assets e.shaAssetName = some sha →
      lowerStr (expectedV1 sha.content) = expectedV2 sha.content) :
    (syncV1 e s).fs.replica = (syncV2 e s).fs.replica ∧
    (syncV1 e s).fs.marker = (syncV2 e s).fs.marker ∧
    (syncV1 e s).fs.backups = (syncV2 e s).fs.backups ∧
    (syncV1 e s).fs.tmpSha = (syncV2 e s).fs.tmpSha ∧
    (syncV1 e s).outcome.exitCode = (syncV2 e s).outcome.exitCode ∧
    (syncV1 e s).downloads = (syncV2 e s).downloads ∧
    ((syncV1 e s).fs.tmpDb = (syncV2 e s).fs.tmpDb ∨
      ((syncV1 e s).outcome.isErr = true ∧ (syncV2 e s).outcome.isErr = true ∧
        (syncV2 e s).fs.tmpDb = none)) := by
  have hloc : localTagV1 s.marker = localTagV2 s.marker := by
    unfold localTagV1 localTagV2
    exact hmarker.symm
  cases hrc : resolveCoords e.owner e.repo e.remoteUrl with
  | none =>
    rw [show syncV1 e s = ⟨s, .err "cannot determine owner and repo", 0⟩ from by
      simp [syncV1, hrc],
      show syncV2 e s = ⟨s, .err "cannot determine owner and repo", 0⟩ from by
      simp [syncV2, hrc]]
    exact ⟨rfl, rfl, rfl, rfl, rfl, rfl, Or.inl rfl⟩
  | some pr =>
  cases hrel : e.release with
  | none =>
    rw [show syncV1 e s = ⟨s, .err "release query failed", 0⟩ from by
      simp [syncV1, hrc, hrel],
      show syncV2 e s = ⟨s, .err "release query failed", 0⟩ from by
      simp [syncV2, hrc, hrel]]
    exact ⟨rfl, rfl, rfl, rfl, rfl, rfl, Or.inl rfl⟩
  | some rel =>
  cases hsk : (eqCI rel.tag_name (localTagV2 s.marker) && s.replica.isSome) with
  | true =>
    have hskV1 : (eqCI rel.tag_name (localTagV1 s.marker) && s.replica.isSome) = true := by
      rw [hloc]
      exact hsk
    rw [syncV1_skip hrc hrel hskV1, syncV2_skip hrc hrel hsk]
    exact ⟨rfl, rfl, rfl, rfl, rfl, rfl, Or.inl rfl⟩
  | false =>
  have hskV1 : (eqCI rel.tag_name (localTagV1 s.marker) && s.replica.isSome) = false := by
    rw [hloc]
    exact hsk
  cases hfa : findAsset rel.assets e.assetName with
  | none =>
    rw [show syncV1 e s = ⟨s, .err "asset not found", 0⟩ from by
      simp [syncV1, hrc, hrel, hskV1, hfa],
      show syncV2 e s = ⟨s, .err "asset not found", 0⟩ from by
      simp [syncV2, hrc, hrel, hsk, hfa]]
    exact ⟨rfl, rfl, rfl, rfl, rfl, rfl, Or.inl rfl⟩
  | some asset =>
  cases hdl : e.dbDownloadOk with
  | false =>
    rw [show syncV1 e s = ⟨s, .err "download failed", 1⟩ from by
      simp [syncV1, hrc, hrel, hskV1, hfa, hdl],
      show syncV2 e s = ⟨s, .err "download failed", 1⟩ from by
      simp [syncV2, hrc, hrel, hsk, hfa, hdl]]
    exact ⟨rfl, rfl, rfl, rfl, rfl, rfl, Or.inl rfl⟩
  | true =>
  rw [syncV1_eq_verify hrc hrel hskV1 hfa hdl, syncV2_eq_verify hrc hrel hsk hfa hdl]
  cases hsa : findAsset rel.assets e.shaAssetName with
  | none =>
    rw [verifyV1_eq_noSha hsa, verifyV2_eq_noSha hsa]
    exact ⟨rfl, rfl, rfl, rfl, rfl, rfl, Or.inl rfl⟩
  | some sha =>
  cases hsd : e.shaDownloadOk with
  | false =>
    rw [show verifyV1 e { s with tmpDb := some asset.content } rel asset.content =
        ⟨{ s with tmpDb := some asset.content }, .err "sha download failed", 2⟩ from by
      simp [verifyV1, hsa, hsd],
      show verifyV2 e { s with tmpDb := some asset.content } rel asset.content =
        ⟨{ s with tmpDb := some asset.content }, .err "sha download failed", 2⟩ from by
      simp [verifyV2, hsa, hsd]]
    exact ⟨rfl, rfl, rfl, rfl, rfl, rfl, Or.inl rfl⟩
  | true =>
  have hag : lowerStr (expectedV1 sha.content) = expectedV2 sha.content :=
    hagree rel sha hrel hsa
  cases hcmp : eqCI (expectedV2 sha.content) (lowerStr (e.sha256 asset.content)) with
  | true =>
    have hcmp1 : eqCI (lowerStr (expectedV1 sha.content))
        (lowerStr (e.sha256 asset.content)) = true := by
      rw [hag]
      exact hcmp
    rw [verifyV1_eq_match hsa hsd hcmp1, verifyV2_eq_match hsa hsd hcmp]
    exact ⟨rfl, rfl, rfl, rfl, rfl, rfl, Or.inl rfl⟩
  | false =>
    have hcmp1 : eqCI (lowerStr (expectedV1 sha.content))
        (lowerStr (e.sha256 asset.content)) = false := by
      rw [hag]
      exact hcmp
    rw [verifyV1_eq_mismatch hsa hsd hcmp1, verifyV2_eq_mismatch hsa hsd hcmp]
    exact ⟨rfl, rfl, rfl, rfl, rfl, rfl, Or.inr ⟨rfl, rfl, rfl⟩⟩

/-- C8 (witness): on a trim-invariant marker (`v0`, no terminator) and a
release with no checksum asset, the two variants produce the same replica. -/
theorem c8_witness :
    (syncV1 { baseEnv with release := some relV3 }
      ⟨some "OLD", some "v0", [], none, none⟩).fs.replica
      = (syncV2 { baseEnv with release := some relV3 }
      ⟨some "OLD", some "v0", [], none, none⟩).fs.replica := by
  have h := c8_amended { baseEnv with release := some relV3 }
    ⟨some "OLD", some "v0", [], none, none⟩ (by decide)
    (by
      intro rel sha hrel hsa
      obtain rfl : relV3 = rel := Option.some_inj.1 hrel
      rw [show findAsset relV3.assets
          ({ baseEnv with release := some relV3 } : Env).shaAssetName = none from by decide]
        at hsa
      simp at hsa)
  exact h.1

end Sencity
